import Mathlib

/-!
Verification development for the DBFolder plugin core (src/src/main.ts).

The plugin state is embedded shallowly: JavaScript `Map`s become ordered
association lists (insertion order preserved, as `Map` iteration order is),
`Record<string, string>` becomes an association list keyed by strings, and
the observable side effects of a call (receiver callbacks invoked, view
destroy calls issued) are returned explicitly alongside the new state.
-/

set_option autoImplicit false

namespace DBFolder

universe u v

variable {α : Type u} {β : Type v}

/-- First value stored under key `k`, mirroring `Map.get` / property read. -/
def lookupA [DecidableEq α] (l : List (α × β)) (k : α) : Option β :=
  match l with
  | [] => none
  | p :: ps => if p.1 = k then some p.2 else lookupA ps k

/-- Replace the value under an existing key in place. -/
def updateA [DecidableEq α] (l : List (α × β)) (k : α) (v : β) : List (α × β) :=
  l.map (fun p => if p.1 = k then (k, v) else p)

/-- `Map.set` / property write: update in place when present, append when absent. -/
def setA [DecidableEq α] (l : List (α × β)) (k : α) (v : β) : List (α × β) :=
  if (lookupA l k).isSome then updateA l k v else l ++ [(k, v)]

/-- `Map.delete` / `delete obj[k]`: drop every pair stored under `k`. -/
def eraseA [DecidableEq α] (l : List (α × β)) (k : α) : List (α × β) :=
  l.filter (fun p => !(decide (p.1 = k)))

/-- Number of pairs stored under key `k`. -/
def countKey [DecidableEq α] (l : List (α × β)) (k : α) : Nat :=
  (l.filter (fun p => decide (p.1 = k))).length

@[simp] theorem lookupA_nil [DecidableEq α] (k : α) :
    lookupA ([] : List (α × β)) k = none := rfl

@[simp] theorem lookupA_cons [DecidableEq α] (p : α × β) (ps : List (α × β)) (k : α) :
    lookupA (p :: ps) k = if p.1 = k then some p.2 else lookupA ps k := rfl

theorem lookupA_append [DecidableEq α] (l₁ l₂ : List (α × β)) (k : α) :
    lookupA (l₁ ++ l₂) k = (lookupA l₁ k).orElse (fun _ => lookupA l₂ k) := by
  induction l₁ with
  | nil => simp
  | cons p ps ih =>
    by_cases h : p.1 = k <;> simp [h, ih, Option.orElse]

theorem lookupA_eraseA_self [DecidableEq α] (l : List (α × β)) (k : α) :
    lookupA (eraseA l k) k = none := by
  induction l with
  | nil => rfl
  | cons p ps ih =>
    by_cases h : p.1 = k
    · simpa [eraseA, List.filter_cons, h] using ih
    · simpa [eraseA, List.filter_cons, h] using ih

theorem lookupA_eraseA_ne [DecidableEq α] (l : List (α × β)) (k k' : α) (h : k' ≠ k) :
    lookupA (eraseA l k) k' = lookupA l k' := by
  induction l with
  | nil => rfl
  | cons p ps ih =>
    by_cases hp : p.1 = k
    · have hkk : ¬ k = k' := fun hc => h hc.symm
      have hpk : ¬ p.1 = k' := by
        rw [hp]
        exact hkk
      simpa [eraseA, List.filter_cons, hp, hpk, hkk] using ih
    · by_cases hq : p.1 = k'
      · simp [eraseA, List.filter_cons, hp, hq, h]
      · simpa [eraseA, List.filter_cons, hp, hq] using ih

theorem lookupA_updateA_self [DecidableEq α] (l : List (α × β)) (k : α) (v : β)
    (h : (lookupA l k).isSome) : lookupA (updateA l k v) k = some v := by
  induction l with
  | nil => simp at h
  | cons p ps ih =>
    by_cases hp : p.1 = k
    · simp [updateA, hp]
    · have h' : (lookupA ps k).isSome := by simpa [hp] using h
      simpa [updateA, hp] using ih h'

theorem lookupA_updateA_ne [DecidableEq α] (l : List (α × β)) (k k' : α) (v : β)
    (h : k' ≠ k) : lookupA (updateA l k v) k' = lookupA l k' := by
  induction l with
  | nil => rfl
  | cons p ps ih =>
    by_cases hp : p.1 = k
    · have h1 : ¬ k = k' := fun hc => h hc.symm
      have h2 : ¬ p.1 = k' := by
        rw [hp]
        exact h1
      simpa [updateA, hp, h1, h2] using ih
    · by_cases hq : p.1 = k'
      · simp [updateA, hp, hq, h]
      · simpa [updateA, hp, hq] using ih

theorem lookupA_setA_self [DecidableEq α] (l : List (α × β)) (k : α) (v : β) :
    lookupA (setA l k v) k = some v := by
  by_cases h : (lookupA l k).isSome
  · simp only [setA, h, if_true]
    exact lookupA_updateA_self l k v h
  · have hn : lookupA l k = none := by simpa using h
    simp [setA, h, lookupA_append, hn, Option.orElse]

theorem lookupA_setA_ne [DecidableEq α] (l : List (α × β)) (k k' : α) (v : β)
    (h : k' ≠ k) : lookupA (setA l k v) k' = lookupA l k' := by
  by_cases hs : (lookupA l k).isSome
  · simp only [setA, hs, if_true]
    exact lookupA_updateA_ne l k k' v h
  · have h1 : ¬ k = k' := fun hc => h hc.symm
    cases hl : lookupA l k' with
    | some w => simp [setA, hs, lookupA_append, hl, Option.orElse]
    | none => simp [setA, hs, lookupA_append, hl, Option.orElse, h1]

theorem lookupA_none_countKey [DecidableEq α] (l : List (α × β)) (k : α)
    (h : lookupA l k = none) : countKey l k = 0 := by
  induction l with
  | nil => rfl
  | cons p ps ih =>
    by_cases hp : p.1 = k
    · simp [hp] at h
    · have h' : lookupA ps k = none := by simpa [hp] using h
      simpa [countKey, List.filter_cons, hp] using ih h'

theorem countKey_updateA [DecidableEq α] (l : List (α × β)) (k k' : α) (v : β) :
    countKey (updateA l k v) k' = countKey l k' := by
  induction l with
  | nil => rfl
  | cons p ps ih =>
    by_cases hp : p.1 = k
    · have hq' : (decide (k = k')) = (decide (p.1 = k')) := by rw [hp]
      by_cases hq : p.1 = k'
      · have hk : k = k' := by rw [← hp]; exact hq
        simpa [updateA, countKey, List.filter_cons, hp, hq, hk] using ih
      · have hk : ¬ k = k' := by rw [← hp]; exact hq
        simpa [updateA, countKey, List.filter_cons, hp, hq, hk] using ih
    · by_cases hq : p.1 = k'
      · have hk : ¬ k' = k := by
          rw [← hq]
          exact hp
        simpa [updateA, countKey, List.filter_cons, hp, hq, hk] using ih
      · simpa [updateA, countKey, List.filter_cons, hp, hq] using ih

theorem countKey_append [DecidableEq α] (l₁ l₂ : List (α × β)) (k : α) :
    countKey (l₁ ++ l₂) k = countKey l₁ k + countKey l₂ k := by
  simp [countKey, List.filter_append]

theorem countKey_setA [DecidableEq α] (l : List (α × β)) (k k' : α) (v : β)
    (hk' : countKey l k' ≤ 1) :
    countKey (setA l k v) k' ≤ 1 := by
  by_cases hs : (lookupA l k).isSome
  · simpa [setA, hs, countKey_updateA] using hk'
  · have hn : lookupA l k = none := by simpa using hs
    have hsa : setA l k v = l ++ [(k, v)] := by simp [setA, hn]
    rw [hsa, countKey_append]
    by_cases hq : k = k'
    · have h0 : countKey l k' = 0 := by
        rw [← hq]
        exact lookupA_none_countKey l k hn
      have h1 : countKey [(k, v)] k' = 1 := by simp [countKey, hq]
      omega
    · have h1 : countKey [(k, v)] k' = 0 := by simp [countKey, hq]
      omega

theorem countKey_eraseA_le [DecidableEq α] (l : List (α × β)) (k k' : α) :
    countKey (eraseA l k) k' ≤ countKey l k' := by
  have hsub : (eraseA l k).Sublist l := List.filter_sublist l
  have hlen := (hsub.filter (fun p => decide (p.1 = k'))).length_le
  simpa [countKey] using hlen

/-! ## Data model (src/src/main.ts)

Windows, view ids and file paths become plain identities: a `Window` is a
`Nat`, a view id and a file path are `String`s.  A `TFile` handle is
identified with its path, since the source compares files by handle
identity and handles are unique per path. -/

/-- `DatabaseCore.FRONTMATTER_KEY` (helpers/Constants is outside src/).
Modelled from the spec: the database marker key, which is also the
registered database view type.  Only its difference from "markdown"
matters. -/
def FRONTMATTER_KEY : String := "database-plugin"

/-- The generic document view type, the literal "markdown" in the source. -/
def MARKDOWN : String := "markdown"

/-- The `CustomView` contract consumed by the plugin (views/AbstractView is
outside src/): a unique `id`, a backing `file`, the owning `window`
(returned by `getWindow()`), and whether `destroy()` raises, which is the
only part of the destroy contract the registry code can observe. -/
structure CustomView where
  id : String
  file : String
  window : Nat
  destroyThrows : Bool
  deriving DecidableEq, Repr

/-- Modelled from the spec: a `StateManager` (StateManager.ts is outside
src/) keeps the observer set of registered views; only the observer
bookkeeping is relevant to the registry claims.  The manager for a file is
constructed with the initiating view already registered. -/
structure StateManager where
  file : String
  observers : List String
  deriving DecidableEq, Repr

/-- Modelled from the spec: `StateManager.registerView` adds the view to
the observer set (a set, hence no duplicate entry for an id). -/
def StateManager.registerView (m : StateManager) (v : CustomView) : StateManager :=
  if v.id ∈ m.observers then m else { m with observers := m.observers ++ [v.id] }

/-- One `WindowRegistry` entry of main.ts: `viewMap` (a JS `Map` from view
id to view), `viewStateReceivers` (subscriber callbacks, identified by a
`Nat` token), and `appRoot` (the render root element identity). -/
structure WinReg where
  viewMap : List (String × CustomView)
  viewStateReceivers : List Nat
  appRoot : Nat
  deriving DecidableEq, Repr

/-- The plugin fields touched by the embedded operations of
`DBFolderPlugin`. -/
structure PluginState where
  windowRegistry : List (Nat × WinReg)
  stateManagers : List (String × StateManager)
  databaseFileModes : List (String × String)
  loaded : Bool
  deriving DecidableEq, Repr

/-- `getDatabaseViews(win)` restricted to a known entry: the values of the
viewMap in insertion order. -/
def WinReg.views (reg : WinReg) : List CustomView :=
  reg.viewMap.map (fun p => p.2)

/-- `getDatabaseViews(win)` of main.ts. -/
def getDatabaseViews (s : PluginState) (win : Nat) : List CustomView :=
  match lookupA s.windowRegistry win with
  | some reg => reg.views
  | none => []

/-- One receiver callback invocation: which receiver was called and the
view list it was called with. -/
abbrev Notification := Nat × List CustomView

/-- `mount(win)` of main.ts: no-op when an entry exists, otherwise create
a fresh render root and an empty entry. -/
def mount (s : PluginState) (win : Nat) (newRoot : Nat) : PluginState :=
  if (lookupA s.windowRegistry win).isSome then s
  else { s with windowRegistry := s.windowRegistry ++ [(win, ⟨[], [], newRoot⟩)] }

/-- `addView(view)` of main.ts.  Returns the new plugin state together
with the receiver invocations the call performed. -/
def addView (s : PluginState) (v : CustomView) : PluginState × List Notification :=
  match lookupA s.windowRegistry v.window with
  | none => (s, [])
  | some reg =>
    let reg1 : WinReg :=
      if (lookupA reg.viewMap v.id).isSome then reg
      else { reg with viewMap := reg.viewMap ++ [(v.id, v)] }
    let sms : List (String × StateManager) :=
      match lookupA s.stateManagers v.file with
      | some m => setA s.stateManagers v.file (m.registerView v)
      | none => s.stateManagers ++ [(v.file, ⟨v.file, [v.id]⟩)]
    let s1 : PluginState :=
      { s with
        windowRegistry := setA s.windowRegistry v.window reg1
        stateManagers := sms }
    (s1, reg1.viewStateReceivers.map (fun r => (r, reg1.views)))

/-- `removeView(view)` of main.ts: the owning window is found by scanning
the registry entries for viewMap membership of the id; the view is removed
from that viewMap; then, only when a manager exists for the file of the
argument view, the view is unregistered from it (`unregisterView`, which
is modelled from the spec: drop the id from the observer set and invoke
the dispose callback — deletion from `stateManagers` — once the set is
empty) and the receivers of that window are notified with the fresh view
list. -/
def removeView (s : PluginState) (v : CustomView) : PluginState × List Notification :=
  match s.windowRegistry.find? (fun wr => (lookupA wr.2.viewMap v.id).isSome) with
  | none => (s, [])
  | some (win, reg) =>
    let reg1 : WinReg := { reg with viewMap := eraseA reg.viewMap v.id }
    let s1 : PluginState := { s with windowRegistry := setA s.windowRegistry win reg1 }
    match lookupA s.stateManagers v.file with
    | some m =>
      let obs := m.observers.filter (fun i => !(decide (i = v.id)))
      let sms :=
        if obs.isEmpty then eraseA s.stateManagers v.file
        else setA s.stateManagers v.file { m with observers := obs }
      ({ s1 with stateManagers := sms },
        reg1.viewStateReceivers.map (fun r => (r, reg1.views)))
    | none => (s1, [])

/-- Outcome of `unmount(win)` of main.ts: the resulting plugin state, the
ids on which `destroy()` was invoked (in viewMap order), whether a destroy
raised (aborting the call), and whether the render root was unmounted and
removed. -/
structure UnmountResult where
  state : PluginState
  destroyCalls : List String
  threw : Bool
  rootCleaned : Bool
  deriving DecidableEq, Repr

/-- The destroy loop of `unmount`: invoke `destroy()` on each view in
order; a raising view stops the loop and the raise propagates. -/
def destroySeq : List CustomView → List String × Bool
  | [] => ([], false)
  | v :: vs =>
    if v.destroyThrows then ([v.id], true)
    else
      let r := destroySeq vs
      (v.id :: r.1, r.2)

/-- `unmount(win)` of main.ts: no-op without an entry; otherwise destroy
every view of the entry, then (only if no destroy raised, since the source
has no try/catch around the loop) unmount and remove the render root,
clear the viewMap and the receiver list, and delete the entry. -/
def unmount (s : PluginState) (win : Nat) : UnmountResult :=
  match lookupA s.windowRegistry win with
  | none => ⟨s, [], false, false⟩
  | some reg =>
    let d := destroySeq reg.views
    if d.2 then ⟨s, d.1, true, false⟩
    else ⟨{ s with windowRegistry := eraseA s.windowRegistry win }, d.1, false, true⟩

/-! ## ViewDispatchInterceptor (registerMonkeyPatches of main.ts) -/

/-- The part of a `ViewState` request the interceptor inspects: the
requested `type` and `state.state?.file`.  `none` stands for an absent
(or undefined) backing file. -/
structure VState where
  type : String
  file : Option String
  deriving DecidableEq, Repr

/-- JS truthiness of an optional string: absent and empty are falsy. -/
def truthyS : Option String → Bool
  | none => false
  | some s => !s.isEmpty

/-- The key `this.id || file` used to read `databaseFileModes`: the leaf
id when truthy, else the file path. -/
def leafKey (leafId : Option String) (file : String) : String :=
  match leafId with
  | some l => if l.isEmpty then file else l
  | none => file

/-- The slice of a metadata cache record the interceptor reads:
`cache?.frontmatter`, a truthy-valued key set when present. -/
structure FileCache where
  frontmatter : Option (List (String × Bool))
  deriving DecidableEq, Repr

/-- `cache?.frontmatter && cache.frontmatter[DatabaseCore.FRONTMATTER_KEY]`. -/
def hasMarker (cache : Option FileCache) : Bool :=
  match cache with
  | none => false
  | some c =>
    match c.frontmatter with
    | none => false
    | some fm => (lookupA fm FRONTMATTER_KEY).getD false

/-- The `setViewState` interception of registerMonkeyPatches: returns the
request actually forwarded to the original `setViewState` together with
the updated `databaseFileModes`.  Mirrors the source condition chain: the
loaded flag, requested type "markdown", truthy `state.state?.file`, mode
under `this.id || file` distinct from "markdown", then the frontmatter
marker; on a rewrite the recorded override is keyed by `state.state.file`. -/
def interceptSetViewState (loaded : Bool) (modes : List (String × String))
    (getCache : String → Option FileCache) (leafId : Option String)
    (st : VState) : VState × List (String × String) :=
  match st.file with
  | some file =>
    if loaded && (st.type == MARKDOWN) && !file.isEmpty
        && !(lookupA modes (leafKey leafId file) == some MARKDOWN) then
      if hasMarker (getCache file) then
        ({ st with type := FRONTMATTER_KEY }, setA modes file FRONTMATTER_KEY)
      else (st, modes)
    else (st, modes)
  | none => (st, modes)

/-- The `detach` interception of registerMonkeyPatches: before forwarding
to the original detach, delete the `databaseFileModes` entry under
`this.id || state.file` when the leaf view has a truthy file and the
stored mode is truthy. -/
def interceptDetach (modes : List (String × String)) (leafId : Option String)
    (viewFile : Option String) : List (String × String) :=
  match viewFile with
  | some file =>
    if file.isEmpty then modes
    else
      match lookupA modes (leafKey leafId file) with
      | some m => if m.isEmpty then modes else eraseA modes (leafKey leafId file)
      | none => modes
  | none => modes

/-- A sequence of intercepted `setViewState` calls on one leaf: each call
carries the metadata cache visible at that moment and the requested view
state.  Returns the forwarded requests in order and the final
`databaseFileModes`. -/
def runIntercepts (loaded : Bool) (leafId : Option String) :
    List (String × String) → List ((String → Option FileCache) × VState) →
    List VState × List (String × String)
  | modes, [] => ([], modes)
  | modes, c :: cs =>
    let r := interceptSetViewState loaded modes c.1 leafId c.2
    let rest := runIntercepts loaded leafId r.2 cs
    (r.1 :: rest.1, rest.2)

/-! ## CommandRouter (registerCommands of main.ts) -/

/-- A database view as the command callbacks see it: its identity.  The
delegated call is recorded as the pair of the view id and the name of the
view operation invoked. -/
structure DBView where
  id : String
  deriving DecidableEq, Repr

/-- Result of one `checkCallback` run: the value returned to the host
(`none` models the undefined fall-through after a delegation) and the
view operation invoked, if any. -/
structure CommandOutcome where
  ret : Option Bool
  invoked : Option (String × String)
  deriving DecidableEq, Repr

/-- The "go next page" command callback of registerCommands. -/
def goNextPageCommand (checking : Bool) (activeView : Option DBView) : CommandOutcome :=
  match activeView with
  | none => ⟨some false, none⟩
  | some v => if checking then ⟨some true, none⟩ else ⟨none, some (v.id, "goNextPage")⟩

/-- The "go previous page" command callback of registerCommands. -/
def goPreviousPageCommand (checking : Bool) (activeView : Option DBView) : CommandOutcome :=
  match activeView with
  | none => ⟨some false, none⟩
  | some v => if checking then ⟨some true, none⟩ else ⟨none, some (v.id, "goPreviousPage")⟩

/-- The "add new row" command callback of registerCommands. -/
def addNewRowCommand (checking : Bool) (activeView : Option DBView) : CommandOutcome :=
  match activeView with
  | none => ⟨some false, none⟩
  | some v => if checking then ⟨some true, none⟩ else ⟨none, some (v.id, "addNewRow")⟩

/-- The "open settings" command callback of registerCommands. -/
def openSettingsCommand (checking : Bool) (activeView : Option DBView) : CommandOutcome :=
  match activeView with
  | none => ⟨some false, none⟩
  | some v => if checking then ⟨some true, none⟩ else ⟨none, some (v.id, "settingsAction")⟩

/-- The "toggle filters" command callback of registerCommands. -/
def toggleFiltersCommand (checking : Bool) (activeView : Option DBView) : CommandOutcome :=
  match activeView with
  | none => ⟨some false, none⟩
  | some v => if checking then ⟨some true, none⟩ else ⟨none, some (v.id, "toggleFilters")⟩

/-- The "open filters" command callback of registerCommands. -/
def openFiltersCommand (checking : Bool) (activeView : Option DBView) : CommandOutcome :=
  match activeView with
  | none => ⟨some false, none⟩
  | some v => if checking then ⟨some true, none⟩ else ⟨none, some (v.id, "openFilters")⟩

/-! ## Settings load (load_settings of main.ts) -/

/-- `Object.assign(target, source)` on string-keyed objects: every key of
the source is written over the target, in source order. -/
def assignOver (target source : List (String × String)) : List (String × String) :=
  source.foldl (fun acc p => setA acc p.1 p.2) target

/-- `load_settings` of main.ts:
`Object.assign({}, DEFAULT_SETTINGS, await this.loadData())`, where
`loadData()` yields `none` when no blob was persisted (Object.assign
skips a null or undefined source). -/
def load_settings (defaults : List (String × String))
    (persisted : Option (List (String × String))) : List (String × String) :=
  match persisted with
  | none => defaults
  | some blob => assignOver defaults blob

/-! ## Live metadata-change listener (registerEvents of main.ts) -/

/-- The registration decision inside the dataview index-ready handler:
when `enable_auto_update` is set, the metadata-change listener is
registered after a fixed delay in milliseconds; otherwise it never is. -/
def autoUpdateListenerDelay (enable_auto_update : Bool) : Option Nat :=
  if enable_auto_update then some 2500 else none

/-- One `handleExternalMetadataChange` invocation issued by the
metadata-change handler. -/
structure MetaCall where
  viewId : String
  changeType : String
  file : String
  isActive : Bool
  oldPath : Option String
  deriving DecidableEq, Repr

/-- The dataview metadata-change handler of registerEvents: iterate every
entry of the window registry and every view of its viewMap, invoking
`handleExternalMetadataChange` on each with `isActive` set when an active
database view exists and its file path equals the file path of the view
being notified. -/
def metadataChangeHandler (registry : List (Nat × WinReg))
    (activeView : Option CustomView) (changeType : String) (file : String)
    (oldPath : Option String) : List MetaCall :=
  (registry.map (fun wr =>
    wr.2.viewMap.map (fun p =>
      { viewId := p.2.id
        changeType := changeType
        file := file
        isActive := match activeView with
          | none => false
          | some av => p.2.file == av.file
        oldPath := oldPath }))).flatten

/-! ## Supporting notions for the claims -/

/-- A view registration or unregistration step, as in the claim about
manager lifecycles. -/
inductive Op where
  | add (v : CustomView)
  | remove (v : CustomView)

/-- The state reached after one `addView` or `removeView` call. -/
def applyOp (s : PluginState) : Op → PluginState
  | .add v => (addView s v).1
  | .remove v => (removeView s v).1

/-- The state reached after a sequence of `addView` and `removeView`
calls. -/
def applyOps (s : PluginState) (ops : List Op) : PluginState :=
  ops.foldl applyOp s

/-- Every file has at most one entry in the `stateManagers` index. -/
def atMostOneManager (s : PluginState) : Prop :=
  ∀ f, countKey s.stateManagers f ≤ 1

/-- The coupling invariant maintained by the registry code: every view
sitting in some viewMap is registered as an observer of the manager of
its file. -/
def observersCover (s : PluginState) : Prop :=
  ∀ wr ∈ s.windowRegistry, ∀ p ∈ wr.2.viewMap,
    ∃ m, lookupA s.stateManagers p.2.file = some m ∧ p.2.id ∈ m.observers

theorem keys_updateA [DecidableEq α] (l : List (α × β)) (k : α) (v : β) :
    (updateA l k v).map Prod.fst = l.map Prod.fst := by
  induction l with
  | nil => rfl
  | cons p ps ih =>
    by_cases hp : p.1 = k
    · simpa [updateA, hp] using ih
    · simpa [updateA, hp] using ih

theorem keys_setA_of_isSome [DecidableEq α] (l : List (α × β)) (k : α) (v : β)
    (h : (lookupA l k).isSome) :
    (setA l k v).map Prod.fst = l.map Prod.fst := by
  simp only [setA, h, if_true]
  exact keys_updateA l k v

theorem setA_eq_append [DecidableEq α] (l : List (α × β)) (k : α) (v : β)
    (hn : lookupA l k = none) : setA l k v = l ++ [(k, v)] := by
  simp [setA, hn]

/-- `addView` keeps the at-most-one-manager-per-file property. -/
theorem addView_atMostOne (s : PluginState) (v : CustomView)
    (h : atMostOneManager s) : atMostOneManager (addView s v).1 := by
  intro f
  cases hreg : lookupA s.windowRegistry v.window with
  | none => simpa [addView, hreg] using h f
  | some reg =>
    cases hm : lookupA s.stateManagers v.file with
    | some m =>
      simp only [addView, hreg, hm]
      exact countKey_setA s.stateManagers v.file f (m.registerView v) (h f)
    | none =>
      simp only [addView, hreg, hm]
      rw [← setA_eq_append s.stateManagers v.file ⟨v.file, [v.id]⟩ hm]
      exact countKey_setA s.stateManagers v.file f ⟨v.file, [v.id]⟩ (h f)

/-- `removeView` keeps the at-most-one-manager-per-file property. -/
theorem removeView_atMostOne (s : PluginState) (v : CustomView)
    (h : atMostOneManager s) : atMostOneManager (removeView s v).1 := by
  intro f
  cases hfind : s.windowRegistry.find? (fun wr => (lookupA wr.2.viewMap v.id).isSome) with
  | none => simpa [removeView, hfind] using h f
  | some entry =>
    obtain ⟨win, reg⟩ := entry
    cases hm : lookupA s.stateManagers v.file with
    | some m =>
      by_cases ho : (m.observers.filter (fun i => !(decide (i = v.id)))).isEmpty
      · simp only [removeView, hfind, hm, ho, if_true]
        exact Nat.le_trans (countKey_eraseA_le s.stateManagers v.file f) (h f)
      · simp only [removeView, hfind, hm, ho, if_false]
        exact countKey_setA s.stateManagers v.file f _ (h f)
    | none => simpa [removeView, hfind, hm] using h f

theorem applyOps_atMostOne (ops : List Op) (s : PluginState)
    (h : atMostOneManager s) : atMostOneManager (applyOps s ops) := by
  induction ops generalizing s with
  | nil => exact h
  | cons op ops ih =>
    have h1 : atMostOneManager (applyOp s op) := by
      cases op with
      | add v => exact addView_atMostOne s v h
      | remove v => exact removeView_atMostOne s v h
    simpa [applyOps, List.foldl_cons] using ih (applyOp s op) h1

/-- Every destroy call issued by the destroy loop names a view of the
list it ran over. -/
theorem destroySeq_subset (vs : List CustomView) :
    ∀ i ∈ (destroySeq vs).1, i ∈ vs.map CustomView.id := by
  induction vs with
  | nil => intro i hi; simp [destroySeq] at hi
  | cons v rest ih =>
    intro i hi
    by_cases hv : v.destroyThrows
    · simp [destroySeq, hv] at hi
      simp [hi]
    · simp only [destroySeq, hv, if_false] at hi
      rcases List.mem_cons.mp hi with h1 | h2
      · simp [h1]
      · simp [List.mem_cons]
        exact Or.inr (by simpa using ih i h2)

/-- When no view raises, the destroy loop runs to completion over the
whole list. -/
theorem destroySeq_clean (vs : List CustomView)
    (h : ∀ v ∈ vs, v.destroyThrows = false) :
    destroySeq vs = (vs.map CustomView.id, false) := by
  induction vs with
  | nil => rfl
  | cons v rest ih =>
    have hv : v.destroyThrows = false := h v (by simp)
    have hrest := ih (fun u hu => h u (by simp [hu]))
    simp [destroySeq, hv, hrest]

/-- A raising view stops the destroy loop right after its own call. -/
theorem destroySeq_throw (pre : List CustomView) (t : CustomView)
    (post : List CustomView) (hpre : ∀ v ∈ pre, v.destroyThrows = false)
    (ht : t.destroyThrows = true) :
    destroySeq (pre ++ t :: post) = (pre.map CustomView.id ++ [t.id], true) := by
  induction pre with
  | nil => simp [destroySeq, ht]
  | cons v rest ih =>
    have hv : v.destroyThrows = false := hpre v (by simp)
    have hrest := ih (fun u hu => hpre u (by simp [hu]))
    simp [destroySeq, hv, hrest]

theorem lookupA_eq_none_of_not_mem [DecidableEq α] (l : List (α × β)) (k : α)
    (h : k ∉ l.map Prod.fst) : lookupA l k = none := by
  induction l with
  | nil => rfl
  | cons p ps ih =>
    simp only [List.map_cons, List.mem_cons] at h
    push_neg at h
    have h1 : ¬ p.1 = k := fun hc => h.1 hc.symm
    simpa [h1] using ih h.2

/-- Plain-value variant of `Option.orElse`, to state merge results
without a thunk. -/
def orElseO {β : Type v} (a b : Option β) : Option β :=
  match a with
  | some x => some x
  | none => b

theorem assignOver_cons (d : List (String × String)) (p : String × String)
    (ps : List (String × String)) :
    assignOver d (p :: ps) = assignOver (setA d p.1 p.2) ps := rfl

/-- Field-level description of the source-over-target object merge: the
source value wins whenever the key is present in the source. -/
theorem lookupA_assignOver (b : List (String × String))
    (d : List (String × String)) (k : String)
    (hb : (b.map Prod.fst).Nodup) :
    lookupA (assignOver d b) k = orElseO (lookupA b k) (lookupA d k) := by
  induction b generalizing d with
  | nil => simp [assignOver, orElseO]
  | cons p ps ih =>
    simp only [List.map_cons, List.nodup_cons] at hb
    obtain ⟨hp, hps⟩ := hb
    rw [assignOver_cons, ih (setA d p.1 p.2) hps]
    by_cases hk : p.1 = k
    · subst hk
      have hnone : lookupA ps p.1 = none := lookupA_eq_none_of_not_mem ps p.1 hp
      simp [hnone, orElseO, lookupA_setA_self]
    · have h' : k ≠ p.1 := fun hc => hk hc.symm
      rw [lookupA_setA_ne d p.1 k p.2 h']
      simp [hk]

/-! ## Claim theorems -/

/-- Claim C8: each of the six active-view commands reports itself
unavailable (the check callback returns false, and the embedding is a
total function, so nothing is raised) when no database view is active;
with an active view the checking pass returns true, and the invocation
pass delegates exactly to the corresponding operation of that view with
no additional logic. -/
theorem commands_route_to_active_view (checking : Bool) (v : DBView) :
    (goNextPageCommand checking none = ⟨some false, none⟩ ∧
      goNextPageCommand true (some v) = ⟨some true, none⟩ ∧
      goNextPageCommand false (some v) = ⟨none, some (v.id, "goNextPage")⟩) ∧
    (goPreviousPageCommand checking none = ⟨some false, none⟩ ∧
      goPreviousPageCommand true (some v) = ⟨some true, none⟩ ∧
      goPreviousPageCommand false (some v) = ⟨none, some (v.id, "goPreviousPage")⟩) ∧
    (addNewRowCommand checking none = ⟨some false, none⟩ ∧
      addNewRowCommand true (some v) = ⟨some true, none⟩ ∧
      addNewRowCommand false (some v) = ⟨none, some (v.id, "addNewRow")⟩) ∧
    (openSettingsCommand checking none = ⟨some false, none⟩ ∧
      openSettingsCommand true (some v) = ⟨some true, none⟩ ∧
      openSettingsCommand false (some v) = ⟨none, some (v.id, "settingsAction")⟩) ∧
    (toggleFiltersCommand checking none = ⟨some false, none⟩ ∧
      toggleFiltersCommand true (some v) = ⟨some true, none⟩ ∧
      toggleFiltersCommand false (some v) = ⟨none, some (v.id, "toggleFilters")⟩) ∧
    (openFiltersCommand checking none = ⟨some false, none⟩ ∧
      openFiltersCommand true (some v) = ⟨some true, none⟩ ∧
      openFiltersCommand false (some v) = ⟨none, some (v.id, "openFilters")⟩) := by
  cases checking <;>
    exact ⟨⟨rfl, rfl, rfl⟩, ⟨rfl, rfl, rfl⟩, ⟨rfl, rfl, rfl⟩,
      ⟨rfl, rfl, rfl⟩, ⟨rfl, rfl, rfl⟩, ⟨rfl, rfl, rfl⟩⟩

/-- Claim C9: load_settings merges the persisted blob over the hard-coded
defaults field by field: with no persisted blob the defaults are returned
whole, and otherwise every field present in the blob takes the persisted
value while every field absent from it keeps its default, so an absent or
partial blob cannot fail the load (the embedding is a total function). -/
theorem load_settings_merges_defaults (defaults blob : List (String × String))
    (hb : (blob.map Prod.fst).Nodup) :
    load_settings defaults none = defaults ∧
    (∀ k, lookupA (load_settings defaults (some blob)) k
      = orElseO (lookupA blob k) (lookupA defaults k)) := by
  refine ⟨rfl, ?_⟩
  intro k
  exact lookupA_assignOver blob defaults k hb

theorem load_settings_merges_defaults_witness :
    lookupA (load_settings [("a", "1"), ("b", "2")] (some [("b", "9")])) "b" = some "9" ∧
    lookupA (load_settings [("a", "1"), ("b", "2")] (some [("b", "9")])) "a" = some "1" := by
  have h := load_settings_merges_defaults [("a", "1"), ("b", "2")] [("b", "9")] (by decide)
  constructor
  · rw [h.2 "b"]
    decide
  · rw [h.2 "a"]
    decide

/-- Claim C10: the live metadata-change listener is registered, 2500 ms
after index-ready, exactly when enable_auto_update is set; when the
handler fires it invokes handleExternalMetadataChange once per view of
every viewMap of every window, regardless of whether the changed file
backs that view, with isActive true exactly when an active database view
exists whose file path equals the file path of the notified view. -/
theorem metadata_change_listener_fanout :
    (∀ e, (autoUpdateListenerDelay e).isSome = e) ∧
    autoUpdateListenerDelay true = some 2500 ∧
    (∀ (registry : List (Nat × WinReg)) (av : Option CustomView) (ct f : String)
        (op : Option String) (win : Nat) (reg : WinReg) (i : String) (vw : CustomView),
      (win, reg) ∈ registry → (i, vw) ∈ reg.viewMap →
      (⟨vw.id, ct, f,
        (match av with | none => false | some a => vw.file == a.file), op⟩ : MetaCall)
        ∈ metadataChangeHandler registry av ct f op) ∧
    (∀ (registry : List (Nat × WinReg)) (av : Option CustomView) (ct f : String)
        (op : Option String),
      (metadataChangeHandler registry av ct f op).length
        = (registry.map (fun wr => wr.2.viewMap.length)).sum) := by
  refine ⟨?_, rfl, ?_, ?_⟩
  · intro e
    cases e <;> rfl
  · intro registry av ct f op win reg i vw hwr hp
    simp only [metadataChangeHandler, List.mem_flatten]
    refine ⟨_, List.mem_map_of_mem _ hwr, ?_⟩
    exact List.mem_map_of_mem _ hp
  · intro registry av ct f op
    induction registry with
    | nil => rfl
    | cons wr rest ih =>
      simp only [metadataChangeHandler] at ih ⊢
      simp only [List.map_cons, List.flatten_cons, List.length_append,
        List.length_map, List.sum_cons]
      rw [ih]

theorem metadata_change_listener_fanout_witness :
    (⟨"x", "update", "changed.md", false, none⟩ : MetaCall)
      ∈ metadataChangeHandler
          [(0, ⟨[("x", ⟨"x", "other.md", 0, false⟩)], [], 7⟩)]
          none "update" "changed.md" none := by
  exact metadata_change_listener_fanout.2.2.1
    [(0, ⟨[("x", ⟨"x", "other.md", 0, false⟩)], [], 7⟩)]
    none "update" "changed.md" none 0
    ⟨[("x", ⟨"x", "other.md", 0, false⟩)], [], 7⟩ "x" ⟨"x", "other.md", 0, false⟩
    (by simp) (by simp)

/-- Claim C7: addView for a view whose window has no registry entry, and
removeView for a view whose id sits in no viewMap, leave the state
unchanged and invoke no receiver; being total functions of the embedding,
neither can raise. -/
theorem stale_view_calls_are_noops :
    (∀ (s : PluginState) (v : CustomView),
      lookupA s.windowRegistry v.window = none → addView s v = (s, [])) ∧
    (∀ (s : PluginState) (v : CustomView),
      (∀ wr ∈ s.windowRegistry, lookupA wr.2.viewMap v.id = none) →
      removeView s v = (s, [])) := by
  constructor
  · intro s v h
    simp [addView, h]
  · intro s v h
    have hf : s.windowRegistry.find?
        (fun wr => (lookupA wr.2.viewMap v.id).isSome) = none := by
      rw [List.find?_eq_none]
      intro wr hwr
      simp [h wr hwr]
    simp [removeView, hf]

theorem stale_view_calls_are_noops_witness :
    addView ⟨[], [], [], true⟩ ⟨"v", "f.md", 0, false⟩ = (⟨[], [], [], true⟩, []) ∧
    removeView ⟨[], [], [], true⟩ ⟨"v", "f.md", 0, false⟩ = (⟨[], [], [], true⟩, []) := by
  exact ⟨stale_view_calls_are_noops.1 _ _ rfl,
    stale_view_calls_are_noops.2 _ _ (by intro wr hwr; simp at hwr)⟩

/-- Claim C6: unmounting window A leaves the registry entry of any other
window B untouched — the lookup of B, hence its viewMap, receiver list
and appRoot, is unchanged and the entry is not removed — and every
destroy call issued names a view of the viewMap of A. -/
theorem unmount_isolates_windows (s : PluginState) (a b : Nat) (hab : b ≠ a) :
    lookupA (unmount s a).state.windowRegistry b = lookupA s.windowRegistry b ∧
    (∀ i ∈ (unmount s a).destroyCalls,
      ∃ reg, lookupA s.windowRegistry a = some reg ∧ i ∈ reg.views.map CustomView.id) := by
  cases hreg : lookupA s.windowRegistry a with
  | none =>
    constructor
    · simp [unmount, hreg]
    · intro i hi
      simp [unmount, hreg] at hi
  | some reg =>
    by_cases ht : (destroySeq reg.views).2
    · constructor
      · simp [unmount, hreg, ht]
      · intro i hi
        simp only [unmount, hreg, ht, if_true] at hi
        exact ⟨reg, rfl, destroySeq_subset reg.views i hi⟩
    · constructor
      · simp [unmount, hreg, ht, lookupA_eraseA_ne _ _ _ hab]
      · intro i hi
        simp only [unmount, hreg, ht, if_false] at hi
        exact ⟨reg, rfl, destroySeq_subset reg.views i hi⟩

theorem unmount_isolates_windows_witness :
    lookupA (unmount
      ⟨[(0, ⟨[("v", ⟨"v", "f.md", 0, false⟩)], [3], 1⟩), (1, ⟨[], [4], 2⟩)], [], [], true⟩
      0).state.windowRegistry 1 = some ⟨[], [4], 2⟩ := by
  have h := unmount_isolates_windows
    ⟨[(0, ⟨[("v", ⟨"v", "f.md", 0, false⟩)], [3], 1⟩), (1, ⟨[], [4], 2⟩)], [], [], true⟩
    0 1 (by decide)
  rw [h.1]
  decide

/-- Claim C2 (amended): when the plugin is loaded, the request is of type
markdown with a truthy backing file, no markdown override sits under the
mode key of the leaf, and the cached frontmatter carries the marker, the
interceptor forwards the request with its type rewritten to the database
view type and records a database-mode override keyed by the file path; in
every other case the original request is forwarded and the overrides are
left unchanged. -/
theorem setViewState_intercept_characterization
    (modes : List (String × String)) (getCache : String → Option FileCache)
    (leafId : Option String) (st : VState) :
    (∀ file, st.file = some file → st.type = MARKDOWN → file.isEmpty = false →
      lookupA modes (leafKey leafId file) ≠ some MARKDOWN →
      hasMarker (getCache file) = true →
      interceptSetViewState true modes getCache leafId st
        = ({ st with type := FRONTMATTER_KEY }, setA modes file FRONTMATTER_KEY)) ∧
    (interceptSetViewState false modes getCache leafId st = (st, modes)) ∧
    (st.type ≠ MARKDOWN →
      interceptSetViewState true modes getCache leafId st = (st, modes)) ∧
    (st.file = none →
      interceptSetViewState true modes getCache leafId st = (st, modes)) ∧
    (st.file = some "" →
      interceptSetViewState true modes getCache leafId st = (st, modes)) ∧
    (∀ file, st.file = some file →
      lookupA modes (leafKey leafId file) = some MARKDOWN →
      interceptSetViewState true modes getCache leafId st = (st, modes)) ∧
    (∀ file, st.file = some file → hasMarker (getCache file) = false →
      interceptSetViewState true modes getCache leafId st = (st, modes)) := by
  refine ⟨?_, ?_, ?_, ?_, ?_, ?_, ?_⟩
  · intro file hf hty hne hmode hmarker
    simp [interceptSetViewState, hf, hty, hne, hmode, hmarker]
  · cases hsf : st.file <;> simp [interceptSetViewState, hsf]
  · intro hty
    cases hsf : st.file with
    | none => simp [interceptSetViewState, hsf]
    | some file => simp [interceptSetViewState, hsf, hty]
  · intro hsf
    simp [interceptSetViewState, hsf]
  · intro hsf
    have he : "".isEmpty = true := rfl
    simp [interceptSetViewState, hsf, he]
  · intro file hf hmode
    simp [interceptSetViewState, hf, hmode]
  · intro file hf hmarker
    by_cases he : file.isEmpty
    · simp [interceptSetViewState, hf, he]
    · simp [interceptSetViewState, hf, he, hmarker]

theorem setViewState_intercept_characterization_witness :
    interceptSetViewState true []
        (fun f => if f = "Tasks.md" then some ⟨some [(FRONTMATTER_KEY, true)]⟩ else none)
        none ⟨MARKDOWN, some "Tasks.md"⟩
      = (⟨FRONTMATTER_KEY, some "Tasks.md"⟩, [("Tasks.md", FRONTMATTER_KEY)]) := by
  have h := (setViewState_intercept_characterization []
    (fun f => if f = "Tasks.md" then some ⟨some [(FRONTMATTER_KEY, true)]⟩ else none)
    none ⟨MARKDOWN, some "Tasks.md"⟩).1 "Tasks.md" rfl rfl (by decide)
    (by decide) (by decide)
  rw [h]
  decide

/-- Claim C2 as frozen is refuted here: the interception fires for a leaf
whose id is "leaf1" backed by "Projects.md", rewrites the type, yet
records no override under the mode key of that leaf — the entry goes
under the file path instead. -/
theorem setViewState_intercept_records_by_file_cex :
    (interceptSetViewState true []
        (fun f => if f = "Projects.md" then some ⟨some [(FRONTMATTER_KEY, true)]⟩ else none)
        (some "leaf1") ⟨MARKDOWN, some "Projects.md"⟩).1.type = FRONTMATTER_KEY ∧
    lookupA (interceptSetViewState true []
        (fun f => if f = "Projects.md" then some ⟨some [(FRONTMATTER_KEY, true)]⟩ else none)
        (some "leaf1") ⟨MARKDOWN, some "Projects.md"⟩).2 "leaf1" = none ∧
    lookupA (interceptSetViewState true []
        (fun f => if f = "Projects.md" then some ⟨some [(FRONTMATTER_KEY, true)]⟩ else none)
        (some "leaf1") ⟨MARKDOWN, some "Projects.md"⟩).2 "Projects.md"
      = some FRONTMATTER_KEY := by
  refine ⟨?_, ?_, ?_⟩ <;> decide

/-- Any intercepted setViewState call on a leaf whose mode key currently
maps to "markdown" forwards the original request and writes nothing. -/
theorem interceptSetViewState_markdown_noop (loaded : Bool)
    (modes : List (String × String)) (getCache : String → Option FileCache)
    (leafId : Option String) (st : VState)
    (h : ∀ file, st.file = some file → file.isEmpty = false →
      lookupA modes (leafKey leafId file) = some MARKDOWN) :
    interceptSetViewState loaded modes getCache leafId st = (st, modes) := by
  cases hsf : st.file with
  | none => simp [interceptSetViewState, hsf]
  | some file =>
    by_cases he : file.isEmpty
    · simp [interceptSetViewState, hsf, he]
    · have hm := h file hsf (by simpa using he)
      simp [interceptSetViewState, hsf, he, hm]

/-- Claim C3: once the mode key of a leaf maps to "markdown", every
subsequent intercepted setViewState call for that leaf forwards its
request unmodified — no rewrite to the database view type — and leaves
the overrides untouched, so the suppression persists across the whole
sequence; and the detach interception deletes the entry for that leaf
before forwarding to the original detach. -/
theorem markdown_override_persists (loaded : Bool) (leafId : Option String)
    (k : String) (modes : List (String × String))
    (hk : lookupA modes k = some MARKDOWN)
    (calls : List ((String → Option FileCache) × VState))
    (hcalls : ∀ c ∈ calls, ∀ file, c.2.file = some file → file.isEmpty = false →
      leafKey leafId file = k) :
    (runIntercepts loaded leafId modes calls).1 = calls.map (fun c => c.2) ∧
    (runIntercepts loaded leafId modes calls).2 = modes ∧
    (∀ file, leafKey leafId file = k → file.isEmpty = false →
      lookupA (interceptDetach modes leafId (some file)) k = none) := by
  have main : ∀ (cs : List ((String → Option FileCache) × VState)),
      (∀ c ∈ cs, ∀ file, c.2.file = some file → file.isEmpty = false →
        leafKey leafId file = k) →
      runIntercepts loaded leafId modes cs = (cs.map (fun c => c.2), modes) := by
    intro cs hcs
    induction cs with
    | nil => rfl
    | cons c rest ih =>
      have hc : interceptSetViewState loaded modes c.1 leafId c.2 = (c.2, modes) := by
        refine interceptSetViewState_markdown_noop loaded modes c.1 leafId c.2 ?_
        intro file hf hne
        rw [hcs c (by simp) file hf hne]
        exact hk
      have hrest := ih (fun c' hc' => hcs c' (by simp [hc']))
      simp [runIntercepts, hc, hrest]
  refine ⟨?_, ?_, ?_⟩
  · rw [main calls hcalls]
  · rw [main calls hcalls]
  · intro file hkey hne
    have hlk : lookupA modes (leafKey leafId file) = some MARKDOWN := by
      rw [hkey]
      exact hk
    have hmd : (MARKDOWN).isEmpty = false := by decide
    simp only [interceptDetach, hne, Bool.false_eq_true, if_false, hlk, hmd]
    rw [hkey]
    exact lookupA_eraseA_self modes k

theorem markdown_override_persists_witness :
    (runIntercepts true (some "L") [("L", MARKDOWN)]
      [(fun _ => some ⟨some [(FRONTMATTER_KEY, true)]⟩,
        ⟨MARKDOWN, some "Projects.md"⟩)]).1 = [⟨MARKDOWN, some "Projects.md"⟩] ∧
    (runIntercepts true (some "L") [("L", MARKDOWN)]
      [(fun _ => some ⟨some [(FRONTMATTER_KEY, true)]⟩,
        ⟨MARKDOWN, some "Projects.md"⟩)]).2 = [("L", MARKDOWN)] ∧
    lookupA (interceptDetach [("L", MARKDOWN)] (some "L") (some "Projects.md")) "L"
      = none := by
  have h := markdown_override_persists true (some "L") "L" [("L", MARKDOWN)]
    (by decide)
    [(fun _ => some ⟨some [(FRONTMATTER_KEY, true)]⟩, ⟨MARKDOWN, some "Projects.md"⟩)]
    (by
      intro c hc file hf hne
      rw [List.mem_singleton] at hc
      subst hc
      simp at hf
      subst hf
      decide)
  exact ⟨h.1, h.2.1, h.2.2 "Projects.md" (by decide) (by decide)⟩

/-- A window whose first view raises on destroy and whose second view is
well behaved, for exercising the unmount destroy loop. -/
def throwingWindowState : PluginState :=
  ⟨[(0, ⟨[("v1", ⟨"v1", "f.md", 0, true⟩), ("v2", ⟨"v2", "g.md", 0, false⟩)], [9], 1⟩)],
    [], [], true⟩

/-- Claim C4 as frozen is refuted here: with the first destroy raising,
unmount issues no destroy call to the second view and performs none of
the registry cleanup — the state, entry included, is left exactly as it
was, because the source loop has no per-view isolation of destroy
failures. -/
theorem unmount_throw_aborts_cleanup_cex :
    (unmount throwingWindowState 0).threw = true ∧
    (unmount throwingWindowState 0).destroyCalls = ["v1"] ∧
    (unmount throwingWindowState 0).state = throwingWindowState := by
  refine ⟨?_, ?_, ?_⟩ <;> decide

/-- Claim C4 (amended): unmount is idempotent — no entry means a no-op,
and after a non-raising unmount a second call is a no-op — and when no
destroy raises, every view is destroyed and the entry is fully cleaned
up; but a raising destroy is not isolated: the raise propagates, the
views after it receive no destroy call and the whole registry entry is
left in place. -/
theorem unmount_idempotent_throw_propagates :
    (∀ (s : PluginState) (w : Nat), lookupA s.windowRegistry w = none →
      unmount s w = ⟨s, [], false, false⟩) ∧
    (∀ (s : PluginState) (w : Nat), (unmount s w).threw = false →
      unmount (unmount s w).state w = ⟨(unmount s w).state, [], false, false⟩) ∧
    (∀ (s : PluginState) (w : Nat) (reg : WinReg),
      lookupA s.windowRegistry w = some reg →
      (∀ v ∈ reg.views, v.destroyThrows = false) →
      unmount s w = ⟨{ s with windowRegistry := eraseA s.windowRegistry w },
        reg.views.map CustomView.id, false, true⟩) ∧
    (∀ (s : PluginState) (w : Nat), (unmount s w).threw = true →
      (unmount s w).state = s) ∧
    (∀ (s : PluginState) (w : Nat) (reg : WinReg) (pre : List CustomView)
        (t : CustomView) (post : List CustomView),
      lookupA s.windowRegistry w = some reg →
      reg.views = pre ++ t :: post →
      (∀ v ∈ pre, v.destroyThrows = false) → t.destroyThrows = true →
      (unmount s w).destroyCalls = pre.map CustomView.id ++ [t.id] ∧
      (unmount s w).threw = true) := by
  refine ⟨?_, ?_, ?_, ?_, ?_⟩
  · intro s w h
    simp [unmount, h]
  · intro s w ht
    cases hreg : lookupA s.windowRegistry w with
    | none =>
      have h1 : (unmount s w).state = s := by simp [unmount, hreg]
      rw [h1]
      simp [unmount, hreg]
    | some reg =>
      by_cases htd : (destroySeq reg.views).2
      · simp [unmount, hreg, htd] at ht
      · have h1 : (unmount s w).state
            = { s with windowRegistry := eraseA s.windowRegistry w } := by
          simp [unmount, hreg, htd]
        rw [h1]
        have h2 : lookupA (eraseA s.windowRegistry w) w = none :=
          lookupA_eraseA_self s.windowRegistry w
        simp [unmount, h2]
  · intro s w reg hreg hclean
    simp [unmount, hreg, destroySeq_clean reg.views hclean]
  · intro s w ht
    cases hreg : lookupA s.windowRegistry w with
    | none => simp [unmount, hreg] at ht
    | some reg =>
      by_cases htd : (destroySeq reg.views).2
      · simp [unmount, hreg, htd]
      · simp [unmount, hreg, htd] at ht
  · intro s w reg pre t post hreg hv hpre ht
    have hd : destroySeq reg.views = (pre.map CustomView.id ++ [t.id], true) := by
      rw [hv]
      exact destroySeq_throw pre t post hpre ht
    constructor <;> simp [unmount, hreg, hd]

theorem unmount_idempotent_throw_propagates_witness :
    unmount ⟨[(0, ⟨[("v", ⟨"v", "f.md", 0, false⟩)], [9], 1⟩)], [], [], true⟩ 0
      = ⟨⟨[], [], [], true⟩, ["v"], false, true⟩ := by
  have h := unmount_idempotent_throw_propagates.2.2.1
    ⟨[(0, ⟨[("v", ⟨"v", "f.md", 0, false⟩)], [9], 1⟩)], [], [], true⟩ 0
    ⟨[("v", ⟨"v", "f.md", 0, false⟩)], [9], 1⟩ rfl (by decide)
  rw [h]
  decide

/-- Claim C5: an addView that changes viewMap membership notifies every
receiver of the window of the view with the fresh view list of that
window; a membership-changing removeView does the same under the
coupling invariant the registry code maintains (every view held in a
viewMap observes the manager of its file); and removeView finds the
owning window by scanning registry entries for membership — its outcome
does not depend on the window field of the view passed to it. -/
theorem view_membership_change_notifies (s : PluginState) (v : CustomView) :
    (∀ reg, lookupA s.windowRegistry v.window = some reg →
      lookupA reg.viewMap v.id = none →
      (addView s v).2 = reg.viewStateReceivers.map
        (fun r => (r, (reg.viewMap ++ [(v.id, v)]).map (fun p => p.2)))) ∧
    (observersCover s →
      ∀ win reg,
        s.windowRegistry.find? (fun wr => (lookupA wr.2.viewMap v.id).isSome)
          = some (win, reg) →
        (v.id, v) ∈ reg.viewMap →
        (removeView s v).2 = reg.viewStateReceivers.map
          (fun r => (r, (eraseA reg.viewMap v.id).map (fun p => p.2)))) ∧
    (∀ w', removeView s { v with window := w' } = removeView s v) := by
  refine ⟨?_, ?_, ?_⟩
  · intro reg hreg hnone
    simp [addView, hreg, hnone, WinReg.views]
  · intro hcov win reg hfind hmem
    have hin : (win, reg) ∈ s.windowRegistry := List.mem_of_find?_eq_some hfind
    obtain ⟨m, hm, hobs⟩ := hcov (win, reg) hin (v.id, v) hmem
    simp [removeView, hfind, hm, WinReg.views]
  · intro w'
    rfl

theorem view_membership_change_notifies_witness :
    (removeView
      ⟨[(0, ⟨[("v", ⟨"v", "f.md", 0, false⟩)], [5], 1⟩)],
        [("f.md", ⟨"f.md", ["v"]⟩)], [], true⟩
      ⟨"v", "f.md", 0, false⟩).2 = [(5, [])] := by
  have h := (view_membership_change_notifies
    ⟨[(0, ⟨[("v", ⟨"v", "f.md", 0, false⟩)], [5], 1⟩)],
      [("f.md", ⟨"f.md", ["v"]⟩)], [], true⟩
    ⟨"v", "f.md", 0, false⟩).2.1
    (by
      intro wr hwr p hp
      rw [List.mem_singleton] at hwr
      subst hwr
      rw [List.mem_singleton] at hp
      subst hp
      exact ⟨⟨"f.md", ["v"]⟩, rfl, by simp⟩)
    0 ⟨[("v", ⟨"v", "f.md", 0, false⟩)], [5], 1⟩ (by decide) (by decide)
  rw [h]
  decide

/-- Claim C1: across any sequence of addView and removeView calls the
stateManagers index never holds two managers for one file; an addView
whose file already has a manager registers the view with that manager,
leaving the key set of the index unchanged; the manager is created
lazily on the first registration for its file, with the initiating view
as its sole observer; and removeView of the last observing view deletes
the entry for the file from the index, which is what the dispose
callback passed at construction does. -/
theorem one_state_manager_per_file :
    (∀ (s : PluginState) (ops : List Op),
      atMostOneManager s → atMostOneManager (applyOps s ops)) ∧
    (∀ (s : PluginState) (v : CustomView) (reg : WinReg) (m : StateManager),
      lookupA s.windowRegistry v.window = some reg →
      lookupA s.stateManagers v.file = some m →
      (addView s v).1.stateManagers.map Prod.fst = s.stateManagers.map Prod.fst ∧
      lookupA (addView s v).1.stateManagers v.file = some (m.registerView v) ∧
      v.id ∈ (m.registerView v).observers) ∧
    (∀ (s : PluginState) (v : CustomView) (reg : WinReg),
      lookupA s.windowRegistry v.window = some reg →
      lookupA s.stateManagers v.file = none →
      (addView s v).1.stateManagers
        = s.stateManagers ++ [(v.file, ⟨v.file, [v.id]⟩)]) ∧
    (∀ (s : PluginState) (v : CustomView) (win : Nat) (reg : WinReg) (m : StateManager),
      s.windowRegistry.find? (fun wr => (lookupA wr.2.viewMap v.id).isSome)
        = some (win, reg) →
      lookupA s.stateManagers v.file = some m →
      m.observers.filter (fun i => !(decide (i = v.id))) = [] →
      lookupA (removeView s v).1.stateManagers v.file = none) := by
  refine ⟨?_, ?_, ?_, ?_⟩
  · intro s ops h
    exact applyOps_atMostOne ops s h
  · intro s v reg m hreg hm
    have hsome : (lookupA s.stateManagers v.file).isSome := by simp [hm]
    refine ⟨?_, ?_, ?_⟩
    · simp only [addView, hreg, hm]
      exact keys_setA_of_isSome s.stateManagers v.file (m.registerView v) hsome
    · simp only [addView, hreg, hm]
      exact lookupA_setA_self s.stateManagers v.file (m.registerView v)
    · simp only [StateManager.registerView]
      by_cases h : v.id ∈ m.observers
      · simp [h]
      · simp [h]
  · intro s v reg hreg hm
    simp [addView, hreg, hm]
  · intro s v win reg m hfind hm hobs
    have hempty : (m.observers.filter (fun i => !(decide (i = v.id)))).isEmpty = true := by
      rw [hobs]
      rfl
    simp only [removeView, hfind, hm, hempty, if_true]
    exact lookupA_eraseA_self s.stateManagers v.file

theorem one_state_manager_per_file_witness :
    (addView
      ⟨[(0, ⟨[], [], 1⟩)], [], [], true⟩
      ⟨"v", "f.md", 0, false⟩).1.stateManagers = [("f.md", ⟨"f.md", ["v"]⟩)] ∧
    lookupA (removeView
      ⟨[(0, ⟨[("v", ⟨"v", "f.md", 0, false⟩)], [], 1⟩)],
        [("f.md", ⟨"f.md", ["v"]⟩)], [], true⟩
      ⟨"v", "f.md", 0, false⟩).1.stateManagers "f.md" = none := by
  constructor
  · have h := one_state_manager_per_file.2.2.1
      ⟨[(0, ⟨[], [], 1⟩)], [], [], true⟩ ⟨"v", "f.md", 0, false⟩
      ⟨[], [], 1⟩ rfl rfl
    rw [h]
    decide
  · exact one_state_manager_per_file.2.2.2
      ⟨[(0, ⟨[("v", ⟨"v", "f.md", 0, false⟩)], [], 1⟩)],
        [("f.md", ⟨"f.md", ["v"]⟩)], [], true⟩
      ⟨"v", "f.md", 0, false⟩ 0 ⟨[("v", ⟨"v", "f.md", 0, false⟩)], [], 1⟩
      ⟨"f.md", ["v"]⟩ (by decide) (by decide) (by decide)

end DBFolder
